import Mathlib

/-!
# Market Monitor — verification of the Signal Detection & Notification Engine

A shallow embedding, in Lean 4, of the core of the `market_monitor`
repository: the persistent-state merge (`state_manager.update_state`,
`state_manager.save_state`), the signal evaluators
(`technical_analysis.analyze_sma`, `macro_analysis.fetch_news_sentiment`,
`macro_analysis.fetch_fed_rate`), the rate-limited alert dispatcher
(`notifications.send_alert`), and the token-discovery scanner
(`meme_scanner.scan_new_tokens`, `meme_scanner.check_token_safety`).

Network I/O is modelled by passing the provider outcome as an explicit
argument (e.g. `Option (ℚ × ℚ)` for a price/SMA fetch, `Except String _`
for an HTTP request that can raise); Python floats are modelled as
rationals; Python dicts that serve as the monitor state are modelled as
association lists with first-match lookup.  Human-readable `message`
strings attached to signals are presentation-only and not examined by any
property below; they are elided from the embedded signal records.
-/

namespace MarketMonitor

/-- JSON-like values stored in the monitor-state document
(`monitor_state.json`): numbers, strings, booleans, `null`, and nested
objects.  Python `True`/`False`/`None` map to `bool`/`null`. -/
inductive Val where
  | num  (q : ℚ)
  | str  (s : String)
  | bool (b : Bool)
  | null
  | obj  (fields : List (String × Val))
  | arr  (elems : List Val)

/-- A Python dict with string keys, as used for `MonitorState` and for the
evaluator deltas: an association list, looked up first-match. -/
abbrev PyDict := List (String × Val)

/-- Lookup in a `PyDict` (Python `d.get(k)`, returning `None` as `none`
when the key is absent). -/
def pyGet : PyDict → String → Option Val
  | [], _ => none
  | (k', v) :: rest, k => if k' = k then some v else pyGet rest k

/-- Right-biased option choice: the first operand wins when present.
This is the lookup-level effect of Python `{**S, **D}` read back-to-front:
`D`'s binding wins, else `S`'s. -/
def orOpt (a b : Option Val) : Option Val :=
  match a with
  | some v => some v
  | none => b

/-- `state_manager.update_state(current_state, updates)`:
`merged = {**current_state, **updates}`.  Keys of `S` keep their position,
with the value overridden by `D` when `D` binds the same key; keys of `D`
not present in `S` are appended in `D`'s order. -/
def update_state (S D : PyDict) : PyDict :=
  S.map (fun p => match pyGet D p.1 with
                  | some v => (p.1, v)
                  | none => p)
    ++ D.filter (fun p => (pyGet S p.1).isNone)

theorem pyGet_append (xs ys : PyDict) (k : String) :
    pyGet (xs ++ ys) k = orOpt (pyGet xs k) (pyGet ys k) := by
  induction xs with
  | nil => simp [pyGet, orOpt]
  | cons p rest ih =>
    obtain ⟨k', v⟩ := p
    by_cases hk : k' = k
    · simp [pyGet, hk, orOpt]
    · simpa [pyGet, hk] using ih

theorem pyGet_map_override (S D : PyDict) (k : String) :
    pyGet (S.map (fun p => match pyGet D p.1 with
                           | some v => (p.1, v)
                           | none => p)) k
      = match pyGet S k with
        | none => none
        | some v => some (match pyGet D k with
                          | some w => w
                          | none => v) := by
  induction S with
  | nil => simp [pyGet]
  | cons p rest ih =>
    obtain ⟨k', v'⟩ := p
    by_cases hk : k' = k
    · subst hk
      cases hD : pyGet D k' <;> simp [pyGet, hD]
    · cases hD : pyGet D k' <;> simp [pyGet, hk, hD, ih]

theorem pyGet_filter_unseen (S D : PyDict) (k : String) :
    pyGet (D.filter (fun p => (pyGet S p.1).isNone)) k
      = if (pyGet S k).isSome then none else pyGet D k := by
  induction D with
  | nil => simp [pyGet]
  | cons p rest ih =>
    obtain ⟨k', v'⟩ := p
    by_cases hk : k' = k
    · subst hk
      cases hS : pyGet S k' with
      | none => simp [List.filter, pyGet, hS]
      | some w => simp [List.filter, pyGet, hS, ih]
    · cases hS : pyGet S k' with
      | none => simp [List.filter, pyGet, hS, hk, ih]
      | some w => simp [List.filter, pyGet, hS, hk, ih]

theorem pyGet_update_state (S D : PyDict) (k : String) :
    pyGet (update_state S D) k = orOpt (pyGet D k) (pyGet S k) := by
  rw [update_state, pyGet_append, pyGet_map_override, pyGet_filter_unseen]
  cases hS : pyGet S k <;> cases hD : pyGet D k <;> simp [orOpt]

/-- C4: `update_state` is a right-biased key union: every key of `S` not
present in `D` keeps its `S` value, every key bound by `D` takes `D`'s
value; as a pure Lean function it mutates neither argument, and no deep
merge of nested objects happens — a nested-object value bound by the delta
replaces the state's value wholesale. -/
theorem update_state_right_biased_union (S D : PyDict) (k : String) :
    (∀ v, pyGet D k = some v → pyGet (update_state S D) k = some v) ∧
    (pyGet D k = none → pyGet (update_state S D) k = pyGet S k) ∧
    (∀ fields, pyGet D k = some (Val.obj fields) →
        pyGet (update_state S D) k = some (Val.obj fields)) := by
  refine ⟨fun v hv => ?_, fun hn => ?_, fun fields hf => ?_⟩
  · rw [pyGet_update_state, hv]; rfl
  · rw [pyGet_update_state, hn]; rfl
  · rw [pyGet_update_state, hf]; rfl

/-- Witness for C4 at concrete inputs: the delta's nested-object value for
`"a"` overrides, and the untouched key `"b"` is preserved. -/
theorem update_state_right_biased_union_witness :
    (∀ v, pyGet [("a", Val.obj [("x", Val.num 1)])] "a" = some v →
        pyGet (update_state [("a", Val.num 7), ("b", Val.str "keep")]
                            [("a", Val.obj [("x", Val.num 1)])]) "a" = some v) ∧
    (pyGet [("a", Val.obj [("x", Val.num 1)])] "a" = none →
        pyGet (update_state [("a", Val.num 7), ("b", Val.str "keep")]
                            [("a", Val.obj [("x", Val.num 1)])]) "a"
          = pyGet [("a", Val.num 7), ("b", Val.str "keep")] "a") ∧
    (∀ fields, pyGet [("a", Val.obj [("x", Val.num 1)])] "a" = some (Val.obj fields) →
        pyGet (update_state [("a", Val.num 7), ("b", Val.str "keep")]
                            [("a", Val.obj [("x", Val.num 1)])]) "a"
          = some (Val.obj fields)) :=
  update_state_right_biased_union
    [("a", Val.num 7), ("b", Val.str "keep")] [("a", Val.obj [("x", Val.num 1)])] "a"

/-- Python truthiness of a JSON-like value (`if was_above:` in
`analyze_sma` applies truthiness to whatever the state holds). -/
def Val.truthy : Val → Bool
  | .num q => decide (q ≠ 0)
  | .str s => !s.isEmpty
  | .bool b => b
  | .null => false
  | .obj fields => !fields.isEmpty
  | .arr elems => !elems.isEmpty

/-- Python `x is None` for a stored JSON value. -/
def Val.isNull : Val → Bool
  | .null => true
  | _ => false

/-- Python 3 `round(x)`: round half to even, on exact rationals. -/
def roundHalfEven (q : ℚ) : ℤ :=
  if q - (⌊q⌋ : ℚ) < 1 / 2 then ⌊q⌋
  else if 1 / 2 < q - (⌊q⌋ : ℚ) then ⌊q⌋ + 1
  else if Even ⌊q⌋ then ⌊q⌋ else ⌊q⌋ + 1

/-- Python `round(x, 2)` as used at the state-write boundary. -/
def round2 (q : ℚ) : ℚ := (roundHalfEven (q * 100) : ℚ) / 100

/-- `technical_analysis.MarketSignal`, minus the presentation-only
`message` string. -/
structure MarketSignal where
  name : String
  level : String
  value : Option ℚ
deriving DecidableEq

/-- The state delta `analyze_sma` builds on every successful fetch. -/
def smaDelta (current_price sma_value : ℚ) : PyDict :=
  [("spy_price", Val.num current_price),
   ("spy_sma_200", Val.num (round2 sma_value)),
   ("spy_above_sma", Val.bool (decide (current_price > sma_value)))]

/-- `technical_analysis.analyze_sma(previous_state)`.

The provider chain (Polygon primary, yfinance fallback) is passed in as
`fetched : Option (price × sma)`; `none` models both sources failing, in
which case the source returns `(None, {})`.  On data, the source computes
`is_above_sma = price > sma`, always builds the same three-key state
delta, and emits `SMA_CROSS_BELOW`/CRITICAL when the previously persisted
`spy_above_sma` was truthy and the price is now at-or-below the SMA,
`SMA_CROSS_ABOVE`/GREEN on the reverse flip, and an `SMA_STATUS`/INFO
heartbeat otherwise (including when `spy_above_sma` was absent or
`None`). -/
def analyze_sma (fetched : Option (ℚ × ℚ)) (previous_state : PyDict) :
    Option MarketSignal × PyDict :=
  match fetched with
  | none => (none, [])
  | some (current_price, sma_value) =>
    let is_above_sma : Bool := decide (current_price > sma_value)
    let state_update := smaDelta current_price sma_value
    let status : Option MarketSignal × PyDict :=
      (some ⟨"SMA_STATUS", "INFO", some current_price⟩, state_update)
    match pyGet previous_state "spy_above_sma" with
    | some w =>
      if !w.isNull then
        if w.truthy && !is_above_sma then
          (some ⟨"SMA_CROSS_BELOW", "CRITICAL", some current_price⟩, state_update)
        else if !w.truthy && is_above_sma then
          (some ⟨"SMA_CROSS_ABOVE", "GREEN", some current_price⟩, state_update)
        else status
      else status
    | none => status

/-- The per-cycle loop of `market_monitor`: each cycle calls the evaluator
on that cycle's fetched data, collects the signal when one is returned,
and merges the delta into the state with `update_state` before the next
cycle. -/
def run_sma : List (ℚ × ℚ) → PyDict → List MarketSignal × PyDict
  | [], st => ([], st)
  | o :: rest, st =>
    let step := analyze_sma (some o) st
    let next := run_sma rest (update_state st step.2)
    (step.1.toList ++ next.1, next.2)

/-- Number of CRITICAL-level signals in a list. -/
def countCritical (sigs : List MarketSignal) : ℕ :=
  sigs.countP (fun s => s.level == "CRITICAL")

theorem analyze_sma_snd (p s : ℚ) (st : PyDict) :
    (analyze_sma (some (p, s)) st).2 = smaDelta p s := by
  unfold analyze_sma
  cases pyGet st "spy_above_sma" with
  | none => rfl
  | some w =>
    by_cases h1 : (!w.isNull) = true <;>
      by_cases h2 : (w.truthy && !decide (p > s)) = true <;>
        by_cases h3 : (!w.truthy && decide (p > s)) = true <;>
          simp [h1, h2, h3]

theorem pyGet_smaDelta_above (p s : ℚ) :
    pyGet (smaDelta p s) "spy_above_sma" = some (Val.bool (decide (p > s))) := by
  rfl

theorem analyze_sma_above_not_critical (p s : ℚ) (st : PyDict) (hps : p > s) :
    ∀ sig ∈ (analyze_sma (some (p, s)) st).1.toList, sig.level ≠ "CRITICAL" := by
  intro sig hsig
  unfold analyze_sma at hsig
  cases hw : pyGet st "spy_above_sma" with
  | none =>
    simp [hw] at hsig
    simp [hsig]
  | some w =>
    by_cases h1 : (!w.isNull) = true
    · have h2 : (w.truthy && !decide (p > s)) = false := by
        simp [decide_eq_true hps]
      by_cases h3 : (!w.truthy && decide (p > s)) = true <;>
        · simp [hw, h1, h2, h3] at hsig
          simp [hsig]
    · simp [hw, h1] at hsig
      simp [hsig]

theorem analyze_sma_below_from_true (p s : ℚ) (st : PyDict)
    (hst : pyGet st "spy_above_sma" = some (Val.bool true)) (hps : ¬ p > s) :
    (analyze_sma (some (p, s)) st).1
      = some ⟨"SMA_CROSS_BELOW", "CRITICAL", some p⟩ := by
  unfold analyze_sma
  simp [hst, Val.isNull, Val.truthy, hps]

theorem analyze_sma_below_from_false (p s : ℚ) (st : PyDict)
    (hst : pyGet st "spy_above_sma" = some (Val.bool false)) (hps : ¬ p > s) :
    (analyze_sma (some (p, s)) st).1
      = some ⟨"SMA_STATUS", "INFO", some p⟩ := by
  unfold analyze_sma
  simp [hst, Val.isNull, Val.truthy, hps]

theorem run_sma_append (xs ys : List (ℚ × ℚ)) (st : PyDict) :
    run_sma (xs ++ ys) st
      = ((run_sma xs st).1 ++ (run_sma ys (run_sma xs st).2).1,
         (run_sma ys (run_sma xs st).2).2) := by
  induction xs generalizing st with
  | nil => simp [run_sma]
  | cons o rest ih => simp [run_sma, ih]

theorem run_sma_length (xs : List (ℚ × ℚ)) (st : PyDict) :
    (run_sma xs st).1.length = xs.length := by
  induction xs generalizing st with
  | nil => rfl
  | cons o rest ih =>
    have hsig : ∃ sig, (analyze_sma (some o) st).1 = some sig := by
      obtain ⟨p, s⟩ := o
      unfold analyze_sma
      cases pyGet st "spy_above_sma" with
      | none => exact ⟨_, rfl⟩
      | some w =>
        by_cases h1 : (!w.isNull) = true <;>
          by_cases h2 : (w.truthy && !decide (p > s)) = true <;>
            by_cases h3 : (!w.truthy && decide (p > s)) = true <;>
              simp [h1, h2, h3]
    obtain ⟨sig, hsig⟩ := hsig
    simp [run_sma, hsig, ih]

theorem pyGet_after_merge_smaDelta (st : PyDict) (p s : ℚ) :
    pyGet (update_state st (smaDelta p s)) "spy_above_sma"
      = some (Val.bool (decide (p > s))) := by
  rw [pyGet_update_state, pyGet_smaDelta_above]
  rfl

theorem run_sma_above_segment (A : List (ℚ × ℚ)) (st : PyDict)
    (hA : ∀ o ∈ A, o.1 > o.2) :
    countCritical (run_sma A st).1 = 0 ∧
    (A ≠ [] → pyGet (run_sma A st).2 "spy_above_sma" = some (Val.bool true)) := by
  induction A generalizing st with
  | nil => exact ⟨rfl, fun h => absurd rfl h⟩
  | cons o rest ih =>
    obtain ⟨p, s⟩ := o
    have hps : p > s := hA (p, s) (List.mem_cons_self _ _)
    have hrest : ∀ o ∈ rest, o.1 > o.2 := fun o ho => hA o (List.mem_cons_of_mem _ ho)
    have hstep := analyze_sma_snd p s st
    have hmerge : pyGet (update_state st (analyze_sma (some (p, s)) st).2) "spy_above_sma"
        = some (Val.bool true) := by
      rw [hstep, pyGet_after_merge_smaDelta]
      simp [decide_eq_true hps]
    obtain ⟨ihcount, ihstate⟩ := ih (update_state st (analyze_sma (some (p, s)) st).2) hrest
    constructor
    · show countCritical ((analyze_sma (some (p, s)) st).1.toList
          ++ (run_sma rest _).1) = 0
      rw [countCritical, List.countP_append]
      have hhead : ((analyze_sma (some (p, s)) st).1.toList).countP
          (fun sg => sg.level == "CRITICAL") = 0 := by
        rw [List.countP_eq_zero]
        intro sig hsig
        have := analyze_sma_above_not_critical p s st hps sig hsig
        simpa using this
      rw [hhead]
      simpa [countCritical] using ihcount
    · intro _
      show pyGet (run_sma rest _).2 "spy_above_sma" = some (Val.bool true)
      rcases Decidable.em (rest = []) with hr | hr
      · subst hr
        simpa [run_sma] using hmerge
      · exact ihstate hr

theorem run_sma_below_from_false (B : List (ℚ × ℚ)) (st : PyDict)
    (hB : ∀ o ∈ B, ¬ o.1 > o.2)
    (hst : pyGet st "spy_above_sma" = some (Val.bool false)) :
    countCritical (run_sma B st).1 = 0 := by
  induction B generalizing st with
  | nil => rfl
  | cons o rest ih =>
    obtain ⟨p, s⟩ := o
    have hps : ¬ p > s := hB (p, s) (List.mem_cons_self _ _)
    have hrest : ∀ o ∈ rest, ¬ o.1 > o.2 := fun o ho => hB o (List.mem_cons_of_mem _ ho)
    have hsig := analyze_sma_below_from_false p s st hst hps
    have hstep := analyze_sma_snd p s st
    have hmerge : pyGet (update_state st (analyze_sma (some (p, s)) st).2) "spy_above_sma"
        = some (Val.bool false) := by
      rw [hstep, pyGet_after_merge_smaDelta]
      simp [hps]
    have := ih (update_state st (analyze_sma (some (p, s)) st).2) hrest hmerge
    show countCritical ((analyze_sma (some (p, s)) st).1.toList ++ (run_sma rest _).1) = 0
    rw [countCritical, List.countP_append]
    rw [hsig]
    simpa [countCritical] using this

/-- C1: with previous state `{spy_above_sma: true}` and fetched data
`price=400, sma=420`, `analyze_sma` returns `SMA_CROSS_BELOW` at CRITICAL
with delta `{spy_price: 400, spy_sma_200: 420, spy_above_sma: false}`;
and for every price sequence that is above the SMA and then stays at or
below it (threading deltas through `update_state` as the orchestrator
does), exactly one CRITICAL signal is emitted, namely at the first below
observation. -/
theorem analyze_sma_cross_below_edge_triggered :
    (analyze_sma (some (400, 420)) [("spy_above_sma", Val.bool true)]
      = (some ⟨"SMA_CROSS_BELOW", "CRITICAL", some 400⟩,
         [("spy_price", Val.num 400), ("spy_sma_200", Val.num 420),
          ("spy_above_sma", Val.bool false)])) ∧
    (∀ (S₀ : PyDict) (A B' : List (ℚ × ℚ)) (p s : ℚ),
      A ≠ [] →
      (∀ o ∈ A, o.1 > o.2) →
      (∀ o ∈ (p, s) :: B', ¬ o.1 > o.2) →
      countCritical (run_sma (A ++ (p, s) :: B') S₀).1 = 1 ∧
      (run_sma (A ++ (p, s) :: B') S₀).1.get? A.length
        = some ⟨"SMA_CROSS_BELOW", "CRITICAL", some p⟩) := by
  constructor
  · have h420 : round2 420 = 420 := by
      norm_num [round2, roundHalfEven]
    simp only [analyze_sma, smaDelta, pyGet, h420]
    norm_num [Val.truthy, Val.isNull]
  · intro S₀ A B' p s hA hAabove hBbelow
    have hps : ¬ p > s := hBbelow (p, s) (List.mem_cons_self _ _)
    have hB' : ∀ o ∈ B', ¬ o.1 > o.2 := fun o ho => hBbelow o (List.mem_cons_of_mem _ ho)
    obtain ⟨hAcount, hAstate⟩ := run_sma_above_segment A S₀ hAabove
    have hAst := hAstate hA
    set stA := (run_sma A S₀).2 with hstA
    have hcrit := analyze_sma_below_from_true p s stA hAst hps
    have hmerge : pyGet (update_state stA (analyze_sma (some (p, s)) stA).2) "spy_above_sma"
        = some (Val.bool false) := by
      rw [analyze_sma_snd, pyGet_after_merge_smaDelta]
      simp [hps]
    have hBcount := run_sma_below_from_false B'
      (update_state stA (analyze_sma (some (p, s)) stA).2) hB' hmerge
    have happ := run_sma_append A ((p, s) :: B') S₀
    have hBform : run_sma ((p, s) :: B') stA
        = ((analyze_sma (some (p, s)) stA).1.toList
             ++ (run_sma B' (update_state stA (analyze_sma (some (p, s)) stA).2)).1,
           (run_sma B' (update_state stA (analyze_sma (some (p, s)) stA).2)).2) := by
      rfl
    constructor
    · rw [happ, ← hstA]
      show countCritical ((run_sma A S₀).1 ++ (run_sma ((p, s) :: B') stA).1) = 1
      rw [hBform, hcrit]
      have h1 : List.countP (fun sg => sg.level == "CRITICAL") (run_sma A S₀).1 = 0 := hAcount
      have h3 : List.countP (fun sg => sg.level == "CRITICAL")
          (run_sma B' (update_state stA (analyze_sma (some (p, s)) stA).2)).1 = 0 := hBcount
      simp [countCritical, List.countP_append, List.countP_cons, h1, h3]
    · rw [happ, ← hstA]
      show ((run_sma A S₀).1 ++ (run_sma ((p, s) :: B') stA).1).get? A.length
        = some ⟨"SMA_CROSS_BELOW", "CRITICAL", some p⟩
      have hlen : (run_sma A S₀).1.length = A.length := run_sma_length A S₀
      rw [List.get?_eq_getElem?, List.getElem?_append_right (le_of_eq hlen), hlen,
        Nat.sub_self, hBform, hcrit]
      simp

/-- Witness for C1: a two-observation sequence, above (10 > 5) then below
(4 ≤ 5), run from the empty state, yields exactly one CRITICAL signal and
it sits at index 1 (the first below observation). -/
theorem analyze_sma_cross_below_edge_triggered_witness :
    countCritical (run_sma ([((10 : ℚ), (5 : ℚ))] ++ [((4 : ℚ), (5 : ℚ))]) []).1 = 1 ∧
    (run_sma ([((10 : ℚ), (5 : ℚ))] ++ [((4 : ℚ), (5 : ℚ))]) []).1.get?
        [((10 : ℚ), (5 : ℚ))].length
      = some ⟨"SMA_CROSS_BELOW", "CRITICAL", some 4⟩ :=
  analyze_sma_cross_below_edge_triggered.2 [] [(10, 5)] [] 4 5
    (by simp) (by decide) (by decide)

/-- Generic association lookup with string keys (a Python dict read,
first match wins), used for the cooldown table and the seen-set. -/
def alookup {α : Type} : List (String × α) → String → Option α
  | [], _ => none
  | (k', v) :: rest, k => if k' = k then some v else alookup rest k

/-- Python dict assignment `d[k] = v`: replace in place when the key
exists, append otherwise. -/
def aset {α : Type} : List (String × α) → String → α → List (String × α)
  | [], k, v => [(k, v)]
  | (k', v') :: rest, k, v =>
    if k' = k then (k', v) :: rest else (k', v') :: aset rest k v

theorem alookup_aset {α : Type} (d : List (String × α)) (k : String) (v : α) :
    alookup (aset d k v) k = some v := by
  induction d with
  | nil => simp [aset, alookup]
  | cons p rest ih =>
    obtain ⟨k', v'⟩ := p
    by_cases hk : k' = k
    · simp [aset, alookup, hk]
    · simp [aset, alookup, hk, ih]

/-- Alert cooldown windows, in hours (`config.py`:
`ALERT_COOLDOWN_CRITICAL_HOURS` defaults to 4 and is env-overridable,
`ALERT_COOLDOWN_WARNING_HOURS = 2`, `ALERT_COOLDOWN_INFO_HOURS = 24`). -/
structure CooldownConfig where
  critical : ℤ
  warning : ℤ
  info : ℤ

/-- The shipped default configuration. -/
def defaultCooldowns : CooldownConfig := ⟨4, 2, 24⟩

/-- `notifications._get_cooldown_hours(level)`: the dict lookup with
GREEN sharing WARNING's window and WARNING as the default for unknown
levels. -/
def _get_cooldown_hours (cfg : CooldownConfig) (level : String) : ℤ :=
  if level = "CRITICAL" then cfg.critical
  else if level = "WARNING" then cfg.warning
  else if level = "INFO" then cfg.info
  else if level = "GREEN" then cfg.warning
  else cfg.warning

/-- `notifications._is_rate_limited(alert_key, level)`: true iff the key
has a recorded last-send and the elapsed time is strictly inside the
level's cooldown window.  `now` (hours) stands for `datetime.utcnow()`;
the module-level `_alert_cooldowns` dict is passed explicitly. -/
def _is_rate_limited (cfg : CooldownConfig) (now : ℚ)
    (cooldowns : List (String × ℚ)) (alert_key level : String) : Bool :=
  match alookup cooldowns alert_key with
  | none => false
  | some last_sent => decide (now - last_sent < (_get_cooldown_hours cfg level : ℚ))

/-- `notifications._record_alert_sent(alert_key)`. -/
def _record_alert_sent (now : ℚ) (cooldowns : List (String × ℚ))
    (alert_key : String) : List (String × ℚ) :=
  aset cooldowns alert_key now

/-- The Telegram transport: whether BOT_TOKEN/CHAT_ID are configured, and
the outcome of the HTTP round trip when one is attempted. -/
structure Transport where
  configured : Bool
  post_ok : Bool

/-- `notifications.send_telegram(message)`: returns the success flag and,
as the second component, the trace of messages actually pushed through
the Telegram API (empty when unconfigured, hence no delivery). -/
def send_telegram (tr : Transport) (message : String) : Bool × List String :=
  if !tr.configured then (false, [])
  else (tr.post_ok, [message])

/-- `key = alert_key or subject` (Python `or`: a `None` or empty-string
key falls back to the subject). -/
def effectiveKey (alert_key : Option String) (subject : String) : String :=
  match alert_key with
  | some k => if k.isEmpty then subject else k
  | none => subject

/-- The emoji prefix table in `send_alert`, default `📊`. -/
def levelEmoji (level : String) : String :=
  if level = "CRITICAL" then "🚨"
  else if level = "WARNING" then "⚠️"
  else if level = "INFO" then "ℹ️"
  else if level = "GREEN" then "🟢"
  else "📊"

/-- `'─' * 40`. -/
def sepLine : String := String.mk (List.replicate 40 '─')

/-- `formatted_body = f"{level_emoji} [{level}] {subject}\n{'─' * 40}\n{body}"`. -/
def format_body (level subject body : String) : String :=
  levelEmoji level ++ " [" ++ level ++ "] " ++ subject ++ "\n" ++ sepLine ++ "\n" ++ body

/-- The `results` dict of `send_alert`: `telegram` is always present
(initially `False`), `rate_limited` is set exactly on the rate-limited
early return (modelled as a flag that is otherwise `false`). -/
structure AlertResult where
  telegram : Bool
  rate_limited : Bool
deriving DecidableEq

/-- `notifications.send_alert(subject, body, level, alert_key)`.

Returned: the results record, the updated cooldown table, and the trace
of messages pushed through the transport.  If the effective key is inside
its cooldown window the call returns rate-limited without delivering and
without touching the table.  Otherwise the current time is recorded for
the key regardless of delivery outcome, and the transport is invoked only
for CRITICAL/WARNING/GREEN levels or when the `alert_key` argument is
literally `"DAILY_SUMMARY"`. -/
def send_alert (cfg : CooldownConfig) (tr : Transport) (now : ℚ)
    (subject body level : String) (alert_key : Option String)
    (cooldowns : List (String × ℚ)) :
    AlertResult × List (String × ℚ) × List String :=
  let key := effectiveKey alert_key subject
  if _is_rate_limited cfg now cooldowns key level then
    (⟨false, true⟩, cooldowns, [])
  else
    let newCooldowns := _record_alert_sent now cooldowns key
    if level = "CRITICAL" ∨ level = "WARNING" ∨ level = "GREEN"
        ∨ alert_key = some "DAILY_SUMMARY" then
      let sent := send_telegram tr (format_body level subject body)
      (⟨sent.1, false⟩, newCooldowns, sent.2)
    else
      (⟨false, false⟩, newCooldowns, [])

theorem send_alert_not_limited_shape (cfg : CooldownConfig) (tr : Transport)
    (now : ℚ) (subject body level : String) (alert_key : Option String)
    (cooldowns : List (String × ℚ))
    (h : _is_rate_limited cfg now cooldowns (effectiveKey alert_key subject) level = false) :
    (send_alert cfg tr now subject body level alert_key cooldowns).1.rate_limited = false ∧
    (send_alert cfg tr now subject body level alert_key cooldowns).2.1
      = aset cooldowns (effectiveKey alert_key subject) now := by
  by_cases hg : (level = "CRITICAL" ∨ level = "WARNING" ∨ level = "GREEN"
      ∨ alert_key = some "DAILY_SUMMARY")
  · simp [send_alert, h, hg, _record_alert_sent]
  · simp [send_alert, h, hg, _record_alert_sent]

/-- C2 (amended): two `send_alert` calls with the same (non-empty) alert
key and level.  Within the cooldown window the second call is
rate-limited and pushes nothing through the transport, so at most one of
the two calls delivers.  Once the full window has elapsed since the
recorded send, the second call is *not* rate-limited; it actually
delivers again only for levels that reach the transport
(CRITICAL/WARNING/GREEN) or for the `DAILY_SUMMARY` key — an INFO-level
alert is never pushed through the transport (see the C10 theorem), so
"delivers again" does not hold for every level as the original claim
states. -/
theorem send_alert_cooldown_window (cfg : CooldownConfig) (tr : Transport)
    (t1 t2 : ℚ) (s1 b1 s2 b2 level k : String) (cd0 : List (String × ℚ))
    (hk : k.isEmpty = false) :
    (t2 - t1 < (_get_cooldown_hours cfg level : ℚ) →
      ((send_alert cfg tr t1 s1 b1 level (some k) cd0).1.rate_limited = false →
        (send_alert cfg tr t2 s2 b2 level (some k)
            (send_alert cfg tr t1 s1 b1 level (some k) cd0).2.1).1.rate_limited = true ∧
        (send_alert cfg tr t2 s2 b2 level (some k)
            (send_alert cfg tr t1 s1 b1 level (some k) cd0).2.1).2.2 = []) ∧
      ((send_alert cfg tr t1 s1 b1 level (some k) cd0).2.2 = [] ∨
       (send_alert cfg tr t2 s2 b2 level (some k)
           (send_alert cfg tr t1 s1 b1 level (some k) cd0).2.1).2.2 = [])) ∧
    ((_get_cooldown_hours cfg level : ℚ) ≤ t2 - t1 →
      (send_alert cfg tr t1 s1 b1 level (some k) cd0).1.rate_limited = false →
      (send_alert cfg tr t2 s2 b2 level (some k)
          (send_alert cfg tr t1 s1 b1 level (some k) cd0).2.1).1.rate_limited = false ∧
      ((level = "CRITICAL" ∨ level = "WARNING" ∨ level = "GREEN" ∨ k = "DAILY_SUMMARY") →
        (send_alert cfg tr t2 s2 b2 level (some k)
            (send_alert cfg tr t1 s1 b1 level (some k) cd0).2.1).2.2
          = (send_telegram tr (format_body level s2 b2)).2)) := by
  have hkey1 : effectiveKey (some k) s1 = k := by simp [effectiveKey, hk]
  have hkey2 : effectiveKey (some k) s2 = k := by simp [effectiveKey, hk]
  by_cases hL1 : _is_rate_limited cfg t1 cd0 k level = true
  · have hc1 : send_alert cfg tr t1 s1 b1 level (some k) cd0 = (⟨false, true⟩, cd0, []) := by
      simp [send_alert, hkey1, hL1]
    constructor
    · intro _
      constructor
      · intro hr1
        rw [hc1] at hr1
        exact absurd hr1 (by simp)
      · left
        rw [hc1]
    · intro _ hr1
      rw [hc1] at hr1
      exact absurd hr1 (by simp)
  · have hL1' : _is_rate_limited cfg t1 cd0 k level = false := by
      simpa using hL1
    have hshape := send_alert_not_limited_shape cfg tr t1 s1 b1 level (some k) cd0
      (by rwa [hkey1])
    have hcd1 : (send_alert cfg tr t1 s1 b1 level (some k) cd0).2.1 = aset cd0 k t1 := by
      rw [hshape.2, hkey1]
    have hlook : alookup (aset cd0 k t1) k = some t1 := alookup_aset cd0 k t1
    have hL2form : _is_rate_limited cfg t2 (aset cd0 k t1) k level
        = decide (t2 - t1 < (_get_cooldown_hours cfg level : ℚ)) := by
      simp [_is_rate_limited, hlook]
    constructor
    · intro hwin
      have hL2 : _is_rate_limited cfg t2 (aset cd0 k t1) k level = true := by
        rw [hL2form]
        exact decide_eq_true hwin
      have hc2 : send_alert cfg tr t2 s2 b2 level (some k) (aset cd0 k t1)
          = (⟨false, true⟩, aset cd0 k t1, []) := by
        simp [send_alert, hkey2, hL2]
      constructor
      · intro _
        rw [hcd1, hc2]
        exact ⟨rfl, rfl⟩
      · right
        rw [hcd1, hc2]
    · intro hafter _
      have hL2 : _is_rate_limited cfg t2 (aset cd0 k t1) k level = false := by
        rw [hL2form]
        simpa using not_lt.mpr hafter
      constructor
      · rw [hcd1]
        exact (send_alert_not_limited_shape cfg tr t2 s2 b2 level (some k) (aset cd0 k t1)
          (by rwa [hkey2])).1
      · intro hg
        have hg' : (level = "CRITICAL" ∨ level = "WARNING" ∨ level = "GREEN"
            ∨ (some k : Option String) = some "DAILY_SUMMARY") := by
          rcases hg with h | h | h | h
          · exact Or.inl h
          · exact Or.inr (Or.inl h)
          · exact Or.inr (Or.inr (Or.inl h))
          · exact Or.inr (Or.inr (Or.inr (by rw [h])))
        rw [hcd1]
        simp [send_alert, hkey2, hL2, hg', hg]

/-- Witness for C2 at concrete inputs: two CRITICAL sends with key `kk`
at hours 0 and 1 (inside the 4-hour default window): the second call is
rate-limited and pushes nothing, so at most one of the two delivered. -/
theorem send_alert_cooldown_window_witness :
    ((send_alert defaultCooldowns ⟨true, true⟩ 1 "s2" "b2" "CRITICAL" (some "kk")
        (send_alert defaultCooldowns ⟨true, true⟩ 0 "s1" "b1" "CRITICAL" (some "kk")
          []).2.1).1.rate_limited = true ∧
      (send_alert defaultCooldowns ⟨true, true⟩ 1 "s2" "b2" "CRITICAL" (some "kk")
        (send_alert defaultCooldowns ⟨true, true⟩ 0 "s1" "b1" "CRITICAL" (some "kk")
          []).2.1).2.2 = []) ∧
    ((send_alert defaultCooldowns ⟨true, true⟩ 0 "s1" "b1" "CRITICAL" (some "kk")
        []).2.2 = [] ∨
     (send_alert defaultCooldowns ⟨true, true⟩ 1 "s2" "b2" "CRITICAL" (some "kk")
        (send_alert defaultCooldowns ⟨true, true⟩ 0 "s1" "b1" "CRITICAL" (some "kk")
          []).2.1).2.2 = []) := by
  have h := send_alert_cooldown_window defaultCooldowns ⟨true, true⟩ 0 1
    "s1" "b1" "s2" "b2" "CRITICAL" "kk" [] rfl
  have hw := h.1 (by norm_num [_get_cooldown_hours, defaultCooldowns])
  exact ⟨hw.1 rfl, hw.2⟩

/-- Counterexample to C2 as frozen: at level INFO with an ordinary key,
a second call made 100 hours after the first (far beyond the 24-hour INFO
window) is *not* rate-limited, yet it delivers nothing — the transport is
never invoked for plain INFO alerts — refuting "a call with the same key
made after the full cooldown window ... delivers again" for every level. -/
theorem send_alert_info_after_window_counterexample :
    (send_alert defaultCooldowns ⟨true, true⟩ 100 "s2" "b2" "INFO" (some "heartbeat")
        (send_alert defaultCooldowns ⟨true, true⟩ 0 "s1" "b1" "INFO" (some "heartbeat")
          []).2.1).1.rate_limited = false ∧
    (send_alert defaultCooldowns ⟨true, true⟩ 100 "s2" "b2" "INFO" (some "heartbeat")
        (send_alert defaultCooldowns ⟨true, true⟩ 0 "s1" "b1" "INFO" (some "heartbeat")
          []).2.1).1.telegram = false ∧
    (send_alert defaultCooldowns ⟨true, true⟩ 100 "s2" "b2" "INFO" (some "heartbeat")
        (send_alert defaultCooldowns ⟨true, true⟩ 0 "s1" "b1" "INFO" (some "heartbeat")
          []).2.1).2.2 = [] := by
  have hne : "heartbeat".isEmpty = false := by decide
  have hc1 : send_alert defaultCooldowns ⟨true, true⟩ 0 "s1" "b1" "INFO" (some "heartbeat") []
      = (⟨false, false⟩, [("heartbeat", 0)], []) := by
    simp [send_alert, effectiveKey, _is_rate_limited, alookup, _record_alert_sent, aset, hne]
  have hcool : _get_cooldown_hours defaultCooldowns "INFO" = 24 := by
    simp [_get_cooldown_hours, defaultCooldowns]
  have hL2 : _is_rate_limited defaultCooldowns 100 [("heartbeat", 0)] "heartbeat" "INFO"
      = false := by
    simp only [_is_rate_limited, alookup, if_pos rfl, hcool, decide_eq_false_iff_not]
    norm_num
  have hc2 : send_alert defaultCooldowns ⟨true, true⟩ 100 "s2" "b2" "INFO" (some "heartbeat")
      [("heartbeat", 0)] = (⟨false, false⟩, [("heartbeat", 100)], []) := by
    simp [send_alert, effectiveKey, hL2, _record_alert_sent, aset, hne]
  simp [hc1, hc2]

/-- C8: a `send_alert` call whose `alert_key` argument is
`"DAILY_SUMMARY"` bypasses the level-based delivery gate: whenever it is
not rate-limited, the call goes through `send_telegram` for *every*
level, its `telegram` result being the transport outcome and its
delivery trace the transport's trace. -/
theorem send_alert_daily_summary_bypasses_level_gate (cfg : CooldownConfig)
    (tr : Transport) (now : ℚ) (subject body level : String)
    (cooldowns : List (String × ℚ))
    (h : _is_rate_limited cfg now cooldowns "DAILY_SUMMARY" level = false) :
    (send_alert cfg tr now subject body level (some "DAILY_SUMMARY") cooldowns).1.telegram
      = (send_telegram tr (format_body level subject body)).1 ∧
    (send_alert cfg tr now subject body level (some "DAILY_SUMMARY") cooldowns).2.2
      = (send_telegram tr (format_body level subject body)).2 := by
  have hne : "DAILY_SUMMARY".isEmpty = false := by decide
  have hkey : effectiveKey (some "DAILY_SUMMARY") subject = "DAILY_SUMMARY" := by
    simp [effectiveKey, hne]
  have hg : (level = "CRITICAL" ∨ level = "WARNING" ∨ level = "GREEN"
      ∨ (some "DAILY_SUMMARY" : Option String) = some "DAILY_SUMMARY") :=
    Or.inr (Or.inr (Or.inr rfl))
  simp [send_alert, hkey, h, hg]

/-- Witness for C8: the daily summary at level INFO, with no cooldown
recorded, goes through the transport. -/
theorem send_alert_daily_summary_bypasses_level_gate_witness :
    (send_alert defaultCooldowns ⟨true, true⟩ 0 "Daily Market Summary" "b" "INFO"
        (some "DAILY_SUMMARY") []).1.telegram
      = (send_telegram ⟨true, true⟩ (format_body "INFO" "Daily Market Summary" "b")).1 ∧
    (send_alert defaultCooldowns ⟨true, true⟩ 0 "Daily Market Summary" "b" "INFO"
        (some "DAILY_SUMMARY") []).2.2
      = (send_telegram ⟨true, true⟩ (format_body "INFO" "Daily Market Summary" "b")).2 :=
  send_alert_daily_summary_bypasses_level_gate defaultCooldowns ⟨true, true⟩ 0
    "Daily Market Summary" "b" "INFO" [] rfl

/-- C10 (implicit): a non-rate-limited `send_alert` at level INFO with an
`alert_key` other than `"DAILY_SUMMARY"` never invokes the transport —
`telegram` is `False` and nothing is delivered — yet the current time is
still recorded as the key's last send, starting the INFO cooldown window
without any delivery. -/
theorem send_alert_info_records_cooldown_without_delivery (cfg : CooldownConfig)
    (tr : Transport) (now : ℚ) (subject body : String) (alert_key : Option String)
    (cooldowns : List (String × ℚ))
    (hak : alert_key ≠ some "DAILY_SUMMARY")
    (h : _is_rate_limited cfg now cooldowns (effectiveKey alert_key subject) "INFO"
        = false) :
    (send_alert cfg tr now subject body "INFO" alert_key cooldowns).1.telegram = false ∧
    (send_alert cfg tr now subject body "INFO" alert_key cooldowns).2.2 = [] ∧
    alookup (send_alert cfg tr now subject body "INFO" alert_key cooldowns).2.1
        (effectiveKey alert_key subject) = some now := by
  have hg : ¬ ("INFO" = "CRITICAL" ∨ "INFO" = "WARNING" ∨ "INFO" = "GREEN"
      ∨ alert_key = some "DAILY_SUMMARY") := by
    simp [hak]
  simp [send_alert, h, hg, _record_alert_sent]
  rw [if_neg hak]
  simp [alookup_aset]

/-- Witness for C10: an INFO alert with key `x` on a fresh cooldown table
delivers nothing but records time 0 for `x`. -/
theorem send_alert_info_records_cooldown_without_delivery_witness :
    (send_alert defaultCooldowns ⟨true, true⟩ 0 "s" "b" "INFO" (some "x") []).1.telegram
        = false ∧
    (send_alert defaultCooldowns ⟨true, true⟩ 0 "s" "b" "INFO" (some "x") []).2.2 = [] ∧
    alookup (send_alert defaultCooldowns ⟨true, true⟩ 0 "s" "b" "INFO" (some "x") []).2.1
        (effectiveKey (some "x") "s") = some 0 :=
  send_alert_info_records_cooldown_without_delivery defaultCooldowns ⟨true, true⟩ 0
    "s" "b" (some "x") [] (by decide) rfl

/-- The safety flags parsed by `meme_scanner.check_token_safety` from the
GoPlus response (each boolean comes from a string-equality test with
`"1"`; taxes come from `float(result.get(..., 0) or 0)`). -/
structure SafetyFlags where
  is_honeypot : Bool
  is_mintable : Bool
  can_take_back_ownership : Bool
  owner_change_balance : Bool
  hidden_owner : Bool
  selfdestruct : Bool
  external_call : Bool
  buy_tax : ℚ
  sell_tax : ℚ
  holder_count : ℤ
  lp_holder_count : ℤ
  is_open_source : Bool

/-- The `score` local of `check_token_safety` before the final clamp:
100, zeroed outright on a honeypot, otherwise reduced by the fixed
per-flag penalties and the tax penalties `min(20, tax)` applied when the
tax exceeds 5. -/
def safety_raw_score (f : SafetyFlags) : ℚ :=
  if f.is_honeypot then 0
  else 100
    - (if f.is_mintable then 30 else 0)
    - (if f.can_take_back_ownership then 20 else 0)
    - (if f.owner_change_balance then 20 else 0)
    - (if f.hidden_owner then 15 else 0)
    - (if f.buy_tax > 5 then min 20 f.buy_tax else 0)
    - (if f.sell_tax > 5 then min 20 f.sell_tax else 0)
    - (if !f.is_open_source then 10 else 0)

/-- `safety["score"] = max(0, score)`. -/
def safety_score (f : SafetyFlags) : ℚ := max 0 (safety_raw_score f)

/-- `safety["safe"] = score >= 50 and not safety["is_honeypot"]`
(computed on the pre-clamp score). -/
def safety_safe (f : SafetyFlags) : Bool :=
  decide (safety_raw_score f ≥ 50) && !f.is_honeypot

theorem safety_raw_score_le_100 (f : SafetyFlags) : safety_raw_score f ≤ 100 := by
  have p1 : (0 : ℚ) ≤ if f.is_mintable then 30 else 0 := by split <;> norm_num
  have p2 : (0 : ℚ) ≤ if f.can_take_back_ownership then 20 else 0 := by split <;> norm_num
  have p3 : (0 : ℚ) ≤ if f.owner_change_balance then 20 else 0 := by split <;> norm_num
  have p4 : (0 : ℚ) ≤ if f.hidden_owner then 15 else 0 := by split <;> norm_num
  have p5 : (0 : ℚ) ≤ if f.buy_tax > 5 then min 20 f.buy_tax else 0 := by
    split
    · next h => exact le_min (by norm_num) (by linarith)
    · norm_num
  have p6 : (0 : ℚ) ≤ if f.sell_tax > 5 then min 20 f.sell_tax else 0 := by
    split
    · next h => exact le_min (by norm_num) (by linarith)
    · norm_num
  have p7 : (0 : ℚ) ≤ if !f.is_open_source then 10 else 0 := by split <;> norm_num
  rw [safety_raw_score]
  split
  · norm_num
  · linarith

/-- C7: the clamped safety score always lies in `[0, 100]`, and a
honeypot flag forces it to exactly 0 regardless of every other flag and
tax value. -/
theorem check_token_safety_score_bounds (f : SafetyFlags) :
    0 ≤ safety_score f ∧ safety_score f ≤ 100 ∧
    (f.is_honeypot = true → safety_score f = 0) := by
  refine ⟨le_max_left 0 _, ?_, fun hh => ?_⟩
  · exact max_le (by norm_num) (safety_raw_score_le_100 f)
  · simp [safety_score, safety_raw_score, hh]

/-- Witness for C7: a honeypot with every other flag clean and zero taxes
still scores 0; the bounds hold at this concrete input. -/
theorem check_token_safety_score_bounds_witness :
    0 ≤ safety_score ⟨true, false, false, false, false, false, false, 0, 0, 1, 1, true⟩ ∧
    safety_score ⟨true, false, false, false, false, false, false, 0, 0, 1, 1, true⟩ ≤ 100 ∧
    ((⟨true, false, false, false, false, false, false, 0, 0, 1, 1, true⟩
        : SafetyFlags).is_honeypot = true →
      safety_score ⟨true, false, false, false, false, false, false, 0, 0, 1, 1, true⟩ = 0) :=
  check_token_safety_score_bounds ⟨true, false, false, false, false, false, false, 0, 0, 1, 1, true⟩

/-- `meme_scanner.TokenInfo` as produced by `parse_pair_to_token`
(timestamps in minutes; money amounts as rationals). -/
structure TokenInfo where
  address : String
  chain : String
  name : String
  symbol : String
  price_usd : Option ℚ
  liquidity_usd : Option ℚ
  volume_24h : Option ℚ
  price_change_24h : Option ℚ
  pair_created_at : Option ℚ
  safety_score : Option ℚ := none
  is_honeypot : Option Bool := none
  mint_revoked : Option Bool := none

/-- `meme_scanner.MemeSignal`, minus the presentation-only message. -/
structure MemeSignal where
  level : String
  name : String
  token : Option TokenInfo

/-- The fields of the `check_token_safety` result dict that
`scan_new_tokens` reads back, with the `.get` defaults already applied
(`score` defaults to 0, `is_honeypot` to `None`, `is_mintable` to
`True`). -/
structure SafetyResult where
  score : ℚ
  is_honeypot : Option Bool
  is_mintable : Bool

/-- The `chain:address` dedup key of a signal's token, when any. -/
def signalKey (s : MemeSignal) : Option String :=
  s.token.map (fun t => t.chain ++ ":" ++ t.address)

/-- `token_key = f"{token.chain}:{token.address}"`. -/
def tokenKey (t : TokenInfo) : String := t.chain ++ ":" ++ t.address

/-- The successive `continue` guards of the `for pair in pairs` loop of
`scan_new_tokens`, in source order (all of them skip the pair and leave
the seen-set untouched): placeholder address (`not token.address or
len < 10`), placeholder symbol, placeholder name, key already in
`_seen_tokens`, pair older than `MAX_NEW_TOKEN_AGE_MINUTES = 120`
(tokens with no creation time pass), and known positive liquidity below
`MIN_LIQUIDITY_USD = 10000` (`None` or exactly-0 liquidity passes). -/
def skipToken (now : ℚ) (token : TokenInfo) (seen : List String) : Bool :=
  (token.address.isEmpty || decide (token.address.length < 10))
  || (token.symbol == "???" || token.symbol == "UNKNOWN" || token.symbol == "")
  || (token.name == "Unknown" || token.name == "UNKNOWN" || token.name == "")
  || decide (tokenKey token ∈ seen)
  || (match token.pair_created_at with
      | some created => decide (now - created > 120)
      | none => false)
  || (match token.liquidity_usd with
      | some l => decide (0 < l ∧ l < 10000)
      | none => false)

/-- The tail of the loop body for a surviving candidate: attach the
safety data (the oracle argument stands for the `check_token_safety`
call) and classify into HOT / WATCHLIST / WARNING / INFO with the fixed
score/liquidity buckets. -/
def emitToken (safety : String → String → SafetyResult) (token : TokenInfo) :
    MemeSignal :=
  let saf := safety token.address token.chain
  let token' := { token with safety_score := some saf.score,
                             is_honeypot := saf.is_honeypot,
                             mint_revoked := some (!saf.is_mintable) }
  let liquidity := match token.liquidity_usd with
                   | some l => l
                   | none => 0
  let level :=
    if saf.score < 40 ∨ saf.is_honeypot = some true then "WARNING"
    else if saf.score ≥ 80 ∧ liquidity ≥ 20000 then "HOT"
    else if saf.score ≥ 60 ∧ liquidity ≥ 5000 then "HOT"
    else if liquidity ≥ 1000 ∨ token.liquidity_usd = none then "WATCHLIST"
    else "INFO"
  ⟨level, "new_token_" ++ token.symbol, some token'⟩

/-- The body of the inner `for pair in pairs` loop of
`meme_scanner.scan_new_tokens`, acting on one parsed pair: unparseable
pairs and pairs hitting any `continue` guard are dropped with the
seen-set untouched; a surviving candidate is marked seen and emitted. -/
def processPair (safety : String → String → SafetyResult) (now : ℚ)
    (t? : Option TokenInfo) (seen : List String) : Option MemeSignal × List String :=
  match t? with
  | none => (none, seen)
  | some token =>
    if skipToken now token seen then (none, seen)
    else (some (emitToken safety token), tokenKey token :: seen)

/-- The inner loop of `scan_new_tokens` over one chain's fetched pair
list, threading the module-level `_seen_tokens` set. -/
def scanPairs (safety : String → String → SafetyResult) (now : ℚ) :
    List (Option TokenInfo) → List String → List MemeSignal × List String
  | [], seen => ([], seen)
  | t? :: rest, seen =>
    match processPair safety now t? seen with
    | (none, seen') => scanPairs safety now rest seen'
    | (some sig, seen') =>
      let r := scanPairs safety now rest seen'
      (sig :: r.1, r.2)

/-- `meme_scanner.scan_new_tokens(chains)`: iterate the chains, fetching
each chain's new pairs (`fetch`, standing for
`get_new_pairs` + `parse_pair_to_token`) and scanning them against the
shared seen-set. -/
def scan_new_tokens (fetch : String → List (Option TokenInfo))
    (safety : String → String → SafetyResult) (now : ℚ) :
    List String → List String → List MemeSignal × List String
  | [], seen => ([], seen)
  | chain :: rest, seen =>
    let r := scanPairs safety now (fetch chain) seen
    let r' := scan_new_tokens fetch safety now rest r.2
    (r.1 ++ r'.1, r'.2)

/-- One scheduled invocation of the scanner: which chains were scanned,
what each fetch returned, the safety oracle, and the wall-clock time. -/
structure ScanInvocation where
  chains : List String
  fetch : String → List (Option TokenInfo)
  safety : String → String → SafetyResult
  now : ℚ

/-- A process lifetime: a sequence of `scan_new_tokens` invocations
sharing the module-level `_seen_tokens` set. -/
def runScans : List ScanInvocation → List String → List MemeSignal × List String
  | [], seen => ([], seen)
  | inv :: rest, seen =>
    let r := scan_new_tokens inv.fetch inv.safety inv.now inv.chains seen
    let r' := runScans rest r.2
    (r.1 ++ r'.1, r'.2)

theorem processPair_cases (safety : String → String → SafetyResult) (now : ℚ)
    (t? : Option TokenInfo) (seen : List String) :
    processPair safety now t? seen = (none, seen) ∨
    ∃ sig k, processPair safety now t? seen = (some sig, k :: seen) ∧
      signalKey sig = some k ∧ k ∉ seen := by
  cases t? with
  | none => exact Or.inl rfl
  | some token =>
    by_cases hskip : skipToken now token seen = true
    · left
      simp [processPair, hskip]
    · right
      have hskip' : skipToken now token seen = false := by simpa using hskip
      have hnotseen : tokenKey token ∉ seen := by
        intro hmem
        apply hskip
        simp [skipToken, hmem]
      refine ⟨emitToken safety token, tokenKey token, ?_, ?_, hnotseen⟩
      · simp [processPair, hskip']
      · simp [signalKey, emitToken, tokenKey]

theorem scanPairs_dedup (safety : String → String → SafetyResult) (now : ℚ)
    (ps : List (Option TokenInfo)) (seen : List String) :
    (∀ s ∈ (scanPairs safety now ps seen).1, (signalKey s).isSome) ∧
    ((scanPairs safety now ps seen).1.filterMap signalKey).Nodup ∧
    (∀ k ∈ (scanPairs safety now ps seen).1.filterMap signalKey, k ∉ seen) ∧
    (∀ k, k ∈ seen → k ∈ (scanPairs safety now ps seen).2) ∧
    (∀ k ∈ (scanPairs safety now ps seen).1.filterMap signalKey,
        k ∈ (scanPairs safety now ps seen).2) := by
  induction ps generalizing seen with
  | nil => simp [scanPairs]
  | cons t? rest ih =>
    rcases processPair_cases safety now t? seen with h | ⟨sig, k, h, hkey, hnew⟩
    · have heq : scanPairs safety now (t? :: rest) seen
          = scanPairs safety now rest seen := by
        simp [scanPairs, h]
      rw [heq]
      exact ih seen
    · have heq : scanPairs safety now (t? :: rest) seen
          = (sig :: (scanPairs safety now rest (k :: seen)).1,
             (scanPairs safety now rest (k :: seen)).2) := by
        simp [scanPairs, h]
      obtain ⟨ih1, ih2, ih3, ih4, ih5⟩ := ih (k :: seen)
      rw [heq]
      refine ⟨?_, ?_, ?_, ?_, ?_⟩
      · intro s hs
        rcases List.mem_cons.mp hs with hs' | hs'
        · rw [hs', hkey]
          rfl
        · exact ih1 s hs'
      · show (List.filterMap signalKey (sig :: _)).Nodup
        rw [List.filterMap_cons, hkey]
        rw [List.nodup_cons]
        exact ⟨fun hk => (ih3 k hk) (List.mem_cons_self k seen), ih2⟩
      · intro k' hk'
        rw [List.filterMap_cons, hkey] at hk'
        rcases List.mem_cons.mp hk' with hk'' | hk''
        · rw [hk'']
          exact hnew
        · intro hmem
          exact (ih3 k' hk'') (List.mem_cons_of_mem k hmem)
      · intro k' hk'
        exact ih4 k' (List.mem_cons_of_mem k hk')
      · intro k' hk'
        rw [List.filterMap_cons, hkey] at hk'
        rcases List.mem_cons.mp hk' with hk'' | hk''
        · rw [hk'']
          exact ih4 k (List.mem_cons_self k seen)
        · exact ih5 k' hk''

theorem scan_new_tokens_dedup (fetch : String → List (Option TokenInfo))
    (safety : String → String → SafetyResult) (now : ℚ)
    (chains : List String) (seen : List String) :
    (∀ s ∈ (scan_new_tokens fetch safety now chains seen).1, (signalKey s).isSome) ∧
    ((scan_new_tokens fetch safety now chains seen).1.filterMap signalKey).Nodup ∧
    (∀ k ∈ (scan_new_tokens fetch safety now chains seen).1.filterMap signalKey,
        k ∉ seen) ∧
    (∀ k, k ∈ seen → k ∈ (scan_new_tokens fetch safety now chains seen).2) ∧
    (∀ k ∈ (scan_new_tokens fetch safety now chains seen).1.filterMap signalKey,
        k ∈ (scan_new_tokens fetch safety now chains seen).2) := by
  induction chains generalizing seen with
  | nil => simp [scan_new_tokens]
  | cons chain rest ih =>
    obtain ⟨p1, p2, p3, p4, p5⟩ := scanPairs_dedup safety now (fetch chain) seen
    obtain ⟨q1, q2, q3, q4, q5⟩ := ih (scanPairs safety now (fetch chain) seen).2
    have heq : scan_new_tokens fetch safety now (chain :: rest) seen
        = ((scanPairs safety now (fetch chain) seen).1
             ++ (scan_new_tokens fetch safety now rest
                  (scanPairs safety now (fetch chain) seen).2).1,
           (scan_new_tokens fetch safety now rest
              (scanPairs safety now (fetch chain) seen).2).2) := by
      simp [scan_new_tokens]
    rw [heq]
    refine ⟨?_, ?_, ?_, ?_, ?_⟩
    · intro s hs
      rcases List.mem_append.mp hs with hs' | hs'
      · exact p1 s hs'
      · exact q1 s hs'
    · rw [List.filterMap_append, List.nodup_append]
      refine ⟨p2, q2, ?_⟩
      intro a ha hb
      exact (q3 a hb) (p5 a ha)
    · intro k hk
      rw [List.filterMap_append] at hk
      rcases List.mem_append.mp hk with hk' | hk'
      · exact p3 k hk'
      · intro hmem
        exact (q3 k hk') (p4 k hmem)
    · intro k hk
      exact q4 k (p4 k hk)
    · intro k hk
      rw [List.filterMap_append] at hk
      rcases List.mem_append.mp hk with hk' | hk'
      · exact q4 k (p5 k hk')
      · exact q5 k hk'

/-- C3: across any sequence of `scan_new_tokens` invocations within one
process lifetime (the module-level `_seen_tokens` set threading through),
every returned signal carries a token, the `chain:address` keys of all
returned signals are pairwise distinct — the scanner never returns two
signals for the same pair — and no returned key was already in the
seen-set when the sequence started: an address, once added to the
seen-set, is never evaluated into a signal again. -/
theorem scan_new_tokens_dedup_across_scans (invs : List ScanInvocation)
    (seen : List String) :
    (∀ s ∈ (runScans invs seen).1, (signalKey s).isSome) ∧
    ((runScans invs seen).1.filterMap signalKey).Nodup ∧
    (∀ k ∈ (runScans invs seen).1.filterMap signalKey, k ∉ seen) ∧
    (∀ k, k ∈ seen → k ∈ (runScans invs seen).2) ∧
    (∀ k ∈ (runScans invs seen).1.filterMap signalKey, k ∈ (runScans invs seen).2) := by
  induction invs generalizing seen with
  | nil => simp [runScans]
  | cons inv rest ih =>
    obtain ⟨p1, p2, p3, p4, p5⟩ :=
      scan_new_tokens_dedup inv.fetch inv.safety inv.now inv.chains seen
    obtain ⟨q1, q2, q3, q4, q5⟩ :=
      ih (scan_new_tokens inv.fetch inv.safety inv.now inv.chains seen).2
    have heq : runScans (inv :: rest) seen
        = ((scan_new_tokens inv.fetch inv.safety inv.now inv.chains seen).1
             ++ (runScans rest
                  (scan_new_tokens inv.fetch inv.safety inv.now inv.chains seen).2).1,
           (runScans rest
              (scan_new_tokens inv.fetch inv.safety inv.now inv.chains seen).2).2) := by
      simp [runScans]
    rw [heq]
    refine ⟨?_, ?_, ?_, ?_, ?_⟩
    · intro s hs
      rcases List.mem_append.mp hs with hs' | hs'
      · exact p1 s hs'
      · exact q1 s hs'
    · rw [List.filterMap_append, List.nodup_append]
      refine ⟨p2, q2, ?_⟩
      intro a ha hb
      exact (q3 a hb) (p5 a ha)
    · intro k hk
      rw [List.filterMap_append] at hk
      rcases List.mem_append.mp hk with hk' | hk'
      · exact p3 k hk'
      · intro hmem
        exact (q3 k hk') (p4 k hmem)
    · intro k hk
      exact q4 k (p4 k hk)
    · intro k hk
      rw [List.filterMap_append] at hk
      rcases List.mem_append.mp hk with hk' | hk'
      · exact q4 k (p5 k hk')
      · exact q5 k hk'

/-- A concrete valid token for exercising the scanner. -/
def sampleToken : TokenInfo :=
  { address := "0x1234567890abcdef"
    chain := "base"
    name := "Sample"
    symbol := "SMPL"
    price_usd := some 1
    liquidity_usd := some 50000
    volume_24h := some 1000
    price_change_24h := some 5
    pair_created_at := some 0 }

/-- A concrete scan invocation that discovers `sampleToken` on `base`. -/
def sampleInvocation : ScanInvocation :=
  { chains := ["base"]
    fetch := fun _ => [some sampleToken]
    safety := fun _ _ => ⟨90, some false, false⟩
    now := 10 }

/-- Witness for C3: running the same discovering invocation twice from an
empty seen-set, the key facts hold at this concrete input (in
particular, the collected signal keys are duplicate-free even though the
same token is fetched in both scans). -/
theorem scan_new_tokens_dedup_across_scans_witness :
    (∀ s ∈ (runScans [sampleInvocation, sampleInvocation] []).1, (signalKey s).isSome) ∧
    ((runScans [sampleInvocation, sampleInvocation] []).1.filterMap signalKey).Nodup ∧
    (∀ k ∈ (runScans [sampleInvocation, sampleInvocation] []).1.filterMap signalKey,
        k ∉ ([] : List String)) ∧
    (∀ k, k ∈ ([] : List String) →
        k ∈ (runScans [sampleInvocation, sampleInvocation] []).2) ∧
    (∀ k ∈ (runScans [sampleInvocation, sampleInvocation] []).1.filterMap signalKey,
        k ∈ (runScans [sampleInvocation, sampleInvocation] []).2) :=
  scan_new_tokens_dedup_across_scans [sampleInvocation, sampleInvocation] []

/-- Non-overlapping substring count with explicit fuel (descending on
each consumed character); with fuel at least the subject's length this is
Python's `str.count` for a non-empty pattern. -/
def countAux (pat : List Char) : ℕ → List Char → ℕ
  | 0, _ => 0
  | _, [] => 0
  | Nat.succ fuel, s =>
    if pat.isPrefixOf s ∧ pat ≠ [] then 1 + countAux pat fuel (s.drop pat.length)
    else countAux pat fuel s.tail

/-- Python `s.count(sub)`: non-overlapping occurrences; an empty pattern
counts `len(s) + 1`. -/
def pyStrCount (s pat : String) : ℕ :=
  if pat.isEmpty then s.length + 1 else countAux pat.data s.data.length s.data

/-- Python `sub in s` (substring containment). -/
def pyContains (s sub : String) : Bool := decide (pyStrCount s sub > 0)

/-- Python `s.lower()` (character-wise, which covers the ASCII keywords
and event names involved here). -/
def pyToLower (s : String) : String := String.mk (s.data.map Char.toLower)

/-- `config.NEGATIVE_KEYWORDS`. -/
def NEGATIVE_KEYWORDS : List String :=
  ["crash", "recession", "plummet", "liquidity crisis",
   "bear market", "sell-off", "selloff", "collapse",
   "downturn", "panic", "correction", "default",
   "bankruptcy", "crisis", "contagion", "meltdown"]

/-- `macro_analysis.MacroSignal`, minus the presentation-only message. -/
structure MacroSignal where
  name : String
  level : String
  value : Option ℚ
deriving DecidableEq

/-- An FMP news article as read by `fetch_news_sentiment`
(`article.get("title", "")` / `article.get("text", "")`; a missing field
behaves as the empty string throughout the loop). -/
structure Article where
  title : String
  text : String

/-- The loop accumulator of the news-sentiment scan. -/
structure NewsAcc where
  negative_hits : ℕ
  matched_keywords : List String
  negative_headlines : List String

/-- The inner `for keyword in NEGATIVE_KEYWORDS` body: add the
occurrence count of the lowered keyword in the combined lowered text,
record the keyword once, and record the article's (raw) title once,
comparing titles case-insensitively and skipping empty titles. -/
def scanKeyword (combined title rawTitle : String) (acc : NewsAcc)
    (keyword : String) : NewsAcc :=
  let count := pyStrCount combined (pyToLower keyword)
  if count > 0 then
    { negative_hits := acc.negative_hits + count
      matched_keywords :=
        if keyword ∈ acc.matched_keywords then acc.matched_keywords
        else acc.matched_keywords ++ [keyword]
      negative_headlines :=
        if ¬ title.isEmpty ∧ title ∉ acc.negative_headlines.map pyToLower then
          acc.negative_headlines ++ [rawTitle]
        else acc.negative_headlines }
  else acc

/-- The outer `for article in articles` body. -/
def scanArticle (acc : NewsAcc) (a : Article) : NewsAcc :=
  let title := pyToLower a.title
  let text := pyToLower a.text
  let combined := title ++ " " ++ text
  NEGATIVE_KEYWORDS.foldl (scanKeyword combined title a.title) acc

/-- `macro_analysis.fetch_news_sentiment()`.

`api_key_set` models `FMP_API_KEY` being configured.  The HTTP request
plus JSON decode is passed in as `fetched`: `Except.error e` models a
raised/caught exception (both `except` arms write the same error key),
`Except.ok none` a JSON payload that is not a list, `Except.ok (some l)`
the articles.  `now_iso` stands for `datetime.utcnow().isoformat()`.
On success the keyword scan yields the state delta and a WARNING signal
when the hit count reaches `NEWS_NEGATIVE_THRESHOLD = 5`, else an INFO
status signal. -/
def fetch_news_sentiment (api_key_set : Bool)
    (fetched : Except String (Option (List Article))) (now_iso : String) :
    Option MacroSignal × PyDict :=
  if !api_key_set then (none, [])
  else
    match fetched with
    | .error e => (none, [("news_last_error", Val.str e)])
    | .ok none => (none, [])
    | .ok (some articles) =>
      let acc := articles.foldl scanArticle ⟨0, [], []⟩
      let state_update : PyDict :=
        [("news_negative_hits", Val.num acc.negative_hits),
         ("news_matched_keywords",
           Val.arr ((acc.matched_keywords.take 10).map Val.str)),
         ("news_articles_scanned", Val.num articles.length),
         ("news_last_check", Val.str now_iso)]
      if acc.negative_hits ≥ 5 then
        (some ⟨"NEWS_SENTIMENT_NEGATIVE", "WARNING", some acc.negative_hits⟩,
         state_update)
      else
        (some ⟨"NEWS_STATUS", "INFO", some acc.negative_hits⟩, state_update)

/-- An FMP economic-calendar event as read by `fetch_fed_rate`:
`(e.get("event", "") or "")`, `e.get("date")`, and the `actual` /
`previous` rate values (`None` or numeric). -/
structure CalendarEvent where
  event : String
  date : Option String
  actual : Option ℚ
  previous : Option ℚ
deriving DecidableEq

/-- The event-name keywords selecting Fed rate decisions. -/
def FED_KEYWORDS : List String :=
  ["federal funds rate", "interest rate decision", "fed interest rate"]

/-- The event filter: any of the keywords occurs in the lowered event
name. -/
def isFedEvent (e : CalendarEvent) : Bool :=
  FED_KEYWORDS.any (fun kw => pyContains (pyToLower e.event) kw)

/-- The sort key `x.get("date", "")`. -/
def dateKey (e : CalendarEvent) : String :=
  match e.date with
  | some d => d
  | none => ""

/-- `fed_events.sort(key=..., reverse=True)`: stable sort by date string,
descending. -/
def sortByDateDesc (l : List CalendarEvent) : List CalendarEvent :=
  l.mergeSort (fun a b => decide (dateKey b ≤ dateKey a))

/-- A state value stored under `fed_rate_current`. -/
def optNum : Option ℚ → Val
  | some q => Val.num q
  | none => Val.null

/-- Python `float(x)` applied to a previously stored state value:
numbers are themselves, booleans are 0/1; other shapes raise
(`fetch_fed_rate` only ever stores numbers or `None` under this key, and
a raise is caught and turned into the status fall-through). -/
def pyFloat : Val → Option ℚ
  | Val.num q => some q
  | Val.bool b => some (if b then 1 else 0)
  | _ => none

/-- The inner guard of `fetch_fed_rate`:
`last_known_rate is None or float(last_known_rate) != curr`; a `float()`
raise is caught by the surrounding `except` and falls through to the
status signal, which behaves like the guard being false. -/
def fedChanged (previous_state : PyDict) (curr : ℚ) : Bool :=
  match pyGet previous_state "fed_rate_current" with
  | none => true
  | some Val.null => true
  | some v =>
    match pyFloat v with
    | some lk => decide (lk ≠ curr)
    | none => false

/-- `macro_analysis.fetch_fed_rate(previous_state)`.

`fetched` models the economic-calendar request as for the news evaluator.
The events are filtered by `FED_KEYWORDS` against the lowered event name,
sorted by date descending, and the most recent is compared: a rate cut
(`actual < previous`) emits `FED_PIVOT`/INFO and a hike emits
`FED_HIKE`/WARNING, in both cases only when the previously persisted
`fed_rate_current` is absent/`None` or differs from `actual`; otherwise
(including unparseable stored values, whose `float()` raise is caught) an
INFO status signal is returned.  The state delta always carries
`fed_rate_current`/`previous`/`date` plus the check timestamp. -/
def fetch_fed_rate (api_key_set : Bool)
    (fetched : Except String (Option (List CalendarEvent)))
    (previous_state : PyDict) (now_iso : String) :
    Option MacroSignal × PyDict :=
  if !api_key_set then (none, [])
  else
    match fetched with
    | .error e => (none, [("fed_last_error", Val.str e)])
    | .ok none => (none, [])
    | .ok (some events) =>
      let fed_events := events.filter isFedEvent
      match sortByDateDesc fed_events with
      | [] => (none, [("fed_last_check", Val.str now_iso)])
      | latest :: _ =>
        let event_date := match latest.date with
                          | some d => d
                          | none => "N/A"
        let state_update : PyDict :=
          [("fed_rate_current", optNum latest.actual),
           ("fed_rate_previous", optNum latest.previous),
           ("fed_rate_date", Val.str event_date),
           ("fed_last_check", Val.str now_iso)]
        let status : Option MacroSignal × PyDict :=
          (some ⟨"FED_STATUS", "INFO",
            match latest.actual with
            | some c => if c ≠ 0 then some c else none
            | none => none⟩, state_update)
        match latest.actual, latest.previous with
        | some curr, some prev =>
          let changed : Bool := fedChanged previous_state curr
          if curr < prev ∧ changed then
            (some ⟨"FED_PIVOT", "INFO", some curr⟩, state_update)
          else if prev < curr ∧ changed then
            (some ⟨"FED_HIKE", "WARNING", some curr⟩, state_update)
          else status
        | _, _ => status

/-- C5 (amended): when provider data is unavailable, every embedded
evaluator returns no signal and raises nothing; the technical-analysis
evaluator returns a genuinely empty delta `(None, {})` (as does either
macro evaluator when its API key is missing, or when the payload is not a
list), but on a failed/raised HTTP request the news and Fed evaluators
return a delta carrying a last-error key — not the empty delta the
original claim states — while still touching no market-state key. -/
theorem evaluators_missing_data_semantics :
    (∀ prev_state : PyDict, analyze_sma none prev_state = (none, [])) ∧
    (∀ fetched now_iso, fetch_news_sentiment false fetched now_iso = (none, [])) ∧
    (∀ now_iso, fetch_news_sentiment true (.ok none) now_iso = (none, [])) ∧
    (∀ e now_iso, fetch_news_sentiment true (.error e) now_iso
        = (none, [("news_last_error", Val.str e)])) ∧
    (∀ fetched prev_state now_iso,
        fetch_fed_rate false fetched prev_state now_iso = (none, [])) ∧
    (∀ prev_state now_iso,
        fetch_fed_rate true (.ok none) prev_state now_iso = (none, [])) ∧
    (∀ e prev_state now_iso, fetch_fed_rate true (.error e) prev_state now_iso
        = (none, [("fed_last_error", Val.str e)])) := by
  refine ⟨fun _ => rfl, fun _ _ => rfl, fun _ => rfl, fun _ _ => rfl,
    fun _ _ _ => rfl, fun _ _ => rfl, fun _ _ _ => rfl⟩

/-- Counterexample to C5 as frozen: a raised news request leaves a
*non-empty* delta — it carries `news_last_error` — so "returns no signal
and an empty state delta" fails for the news-sentiment evaluator. -/
theorem fetch_news_sentiment_error_delta_counterexample :
    (fetch_news_sentiment true (.error "timeout") "t").1 = none ∧
    (fetch_news_sentiment true (.error "timeout") "t").2
      = [("news_last_error", Val.str "timeout")] ∧
    (fetch_news_sentiment true (.error "timeout") "t").2 ≠ [] := by
  refine ⟨rfl, rfl, ?_⟩
  intro h
  simp [fetch_news_sentiment] at h

theorem fetch_fed_rate_snd (events : List CalendarEvent) (prev_state : PyDict)
    (now_iso : String) (latest : CalendarEvent) (restE : List CalendarEvent)
    (hsort : sortByDateDesc (events.filter isFedEvent) = latest :: restE) :
    (fetch_fed_rate true (.ok (some events)) prev_state now_iso).2
      = [("fed_rate_current", optNum latest.actual),
         ("fed_rate_previous", optNum latest.previous),
         ("fed_rate_date", Val.str (match latest.date with
                                    | some d => d
                                    | none => "N/A")),
         ("fed_last_check", Val.str now_iso)] := by
  unfold fetch_fed_rate
  rw [if_neg (by simp)]
  dsimp only
  rw [hsort]
  dsimp only
  cases ha : latest.actual <;> cases hp : latest.previous <;>
    simp only [ha, hp] <;> split_ifs <;> rfl

theorem fetch_fed_rate_fst (events : List CalendarEvent) (prev_state : PyDict)
    (now_iso : String) (latest : CalendarEvent) (restE : List CalendarEvent)
    (hsort : sortByDateDesc (events.filter isFedEvent) = latest :: restE)
    (curr prev : ℚ) (ha : latest.actual = some curr)
    (hp : latest.previous = some prev) :
    (fetch_fed_rate true (.ok (some events)) prev_state now_iso).1
      = if curr < prev ∧ fedChanged prev_state curr then
          some ⟨"FED_PIVOT", "INFO", some curr⟩
        else if prev < curr ∧ fedChanged prev_state curr then
          some ⟨"FED_HIKE", "WARNING", some curr⟩
        else some ⟨"FED_STATUS", "INFO", if curr ≠ 0 then some curr else none⟩ := by
  unfold fetch_fed_rate
  rw [if_neg (by simp)]
  dsimp only
  rw [hsort]
  dsimp only
  rw [ha, hp]
  dsimp only
  split_ifs <;> rfl

/-- C9 (amended): given a most-recent Fed event with values
`actual = curr`, `previous = prev` and a numeric previously persisted
`fed_rate_current = lk`, the evaluator emits `FED_PIVOT`/INFO exactly on
a cut in the event itself (`curr < prev`) with `curr` differing from the
last *observed* value `lk`, `FED_HIKE`/WARNING symmetrically, and only a
status signal when `lk = curr`; and `fed_rate_current` is persisted in
the delta on every successful cycle — not only on signal emission, the
value compared against is the last observed value refreshed every poll,
like the other evaluators. -/
theorem fetch_fed_rate_transition_rule (events : List CalendarEvent)
    (prev_state : PyDict) (now_iso : String)
    (latest : CalendarEvent) (restE : List CalendarEvent)
    (hsort : sortByDateDesc (events.filter isFedEvent) = latest :: restE)
    (curr prev : ℚ) (ha : latest.actual = some curr) (hp : latest.previous = some prev)
    (lk : ℚ) (hlk : pyGet prev_state "fed_rate_current" = some (Val.num lk)) :
    (curr < prev ∧ lk ≠ curr →
       (fetch_fed_rate true (.ok (some events)) prev_state now_iso).1
         = some ⟨"FED_PIVOT", "INFO", some curr⟩) ∧
    (prev < curr ∧ lk ≠ curr →
       (fetch_fed_rate true (.ok (some events)) prev_state now_iso).1
         = some ⟨"FED_HIKE", "WARNING", some curr⟩) ∧
    (lk = curr →
       (fetch_fed_rate true (.ok (some events)) prev_state now_iso).1
         = some ⟨"FED_STATUS", "INFO", if curr ≠ 0 then some curr else none⟩) ∧
    pyGet (fetch_fed_rate true (.ok (some events)) prev_state now_iso).2
        "fed_rate_current" = some (Val.num curr) := by
  have hsnd := fetch_fed_rate_snd events prev_state now_iso latest restE hsort
  have hfst := fetch_fed_rate_fst events prev_state now_iso latest restE hsort
    curr prev ha hp
  have hch : fedChanged prev_state curr = decide (lk ≠ curr) := by
    simp [fedChanged, hlk, pyFloat]
  refine ⟨?_, ?_, ?_, ?_⟩
  · intro ⟨hcut, hne⟩
    rw [hfst, hch, if_pos ⟨hcut, decide_eq_true hne⟩]
  · intro ⟨hhike, hne⟩
    rw [hfst, hch, if_neg (fun h => absurd h.1 (by linarith)),
      if_pos ⟨hhike, decide_eq_true hne⟩]
  · intro hequal
    rw [hfst, hch, if_neg (fun h => absurd hequal (of_decide_eq_true h.2)),
      if_neg (fun h => absurd hequal (of_decide_eq_true h.2))]
  · rw [hsnd, ha]
    rfl

/-- The concrete Fed event used in the C9 counterexample and witness. -/
def fedCutEvent : CalendarEvent :=
  { event := "Federal Funds Rate"
    date := some "2025-01-01"
    actual := some 4
    previous := some 5 }

/-- Witness for C9 at a concrete cut: actual 4 vs event-previous 5 with
last observed 5 emits `FED_PIVOT` and persists `fed_rate_current = 4`. -/
theorem fetch_fed_rate_transition_rule_witness :
    ((4 : ℚ) < 5 ∧ (5 : ℚ) ≠ 4 →
       (fetch_fed_rate true (.ok (some [fedCutEvent]))
           [("fed_rate_current", Val.num 5)] "t").1
         = some ⟨"FED_PIVOT", "INFO", some 4⟩) ∧
    ((5 : ℚ) < 4 ∧ (5 : ℚ) ≠ 4 →
       (fetch_fed_rate true (.ok (some [fedCutEvent]))
           [("fed_rate_current", Val.num 5)] "t").1
         = some ⟨"FED_HIKE", "WARNING", some 4⟩) ∧
    ((5 : ℚ) = 4 →
       (fetch_fed_rate true (.ok (some [fedCutEvent]))
           [("fed_rate_current", Val.num 5)] "t").1
         = some ⟨"FED_STATUS", "INFO", if (4 : ℚ) ≠ 0 then some 4 else none⟩) ∧
    pyGet (fetch_fed_rate true (.ok (some [fedCutEvent]))
        [("fed_rate_current", Val.num 5)] "t").2 "fed_rate_current"
      = some (Val.num 4) :=
  fetch_fed_rate_transition_rule [fedCutEvent] [("fed_rate_current", Val.num 5)] "t"
    fedCutEvent []
    (by
      simp only [List.filter_cons, List.filter_nil]
      rw [show isFedEvent fedCutEvent = true from by decide]
      simp [sortByDateDesc])
    4 5 rfl rfl 5 rfl

/-- The concrete unchanged Fed event (actual = previous = 5). -/
def fedFlatEvent : CalendarEvent :=
  { event := "Federal Funds Rate"
    date := some "2025-01-01"
    actual := some 5
    previous := some 5 }

/-- Counterexample to C9 as frozen: on a cycle that emits no transition
signal at all (the rate is unchanged, so only a status heartbeat comes
back), `fed_rate_current` is still written into the delta — the
comparison value is persisted on every successful cycle, not only on
signal emission. -/
theorem fed_rate_persisted_without_signal_counterexample :
    (fetch_fed_rate true (.ok (some [fedFlatEvent])) [] "t").1
      = some ⟨"FED_STATUS", "INFO", some 5⟩ ∧
    pyGet (fetch_fed_rate true (.ok (some [fedFlatEvent])) [] "t").2
        "fed_rate_current" = some (Val.num 5) := by
  have hsort : sortByDateDesc (List.filter isFedEvent [fedFlatEvent])
      = [fedFlatEvent] := by
    simp only [List.filter_cons, List.filter_nil]
    rw [show isFedEvent fedFlatEvent = true from by decide]
    simp [sortByDateDesc]
  constructor
  · rw [fetch_fed_rate_fst [fedFlatEvent] [] "t" fedFlatEvent [] hsort 5 5 rfl rfl,
      if_neg (fun h => absurd h.1 (lt_irrefl 5)),
      if_neg (fun h => absurd h.1 (lt_irrefl 5)),
      if_pos (by norm_num)]
  · rw [fetch_fed_rate_snd [fedFlatEvent] [] "t" fedFlatEvent [] hsort]
    rfl

/-- A file-system operation performed by the state store. -/
inductive FsOp where
  | openWrite (path : String)
  | writeAll (path : String) (content : PyDict)
  | rename (src dst : String)

/-- `config.STATE_FILE_PATH` (default value). -/
def STATE_FILE_PATH : String := "monitor_state.json"

/-- `state_manager.save_state(state)` on its success path, as the
sequence of file-system operations it performs: stamp `_last_updated`
and `_version` into the dict, then `open(STATE_FILE_PATH, "w")` — a
truncating open of the state file itself — and `json.dump` the document
into it.  No temporary file is involved and no rename is performed. -/
def save_state_trace (state : PyDict) (now_iso : String) : List FsOp :=
  let stamped :=
    aset (aset state "_last_updated" (Val.str now_iso)) "_version" (Val.str "1.0")
  [FsOp.openWrite STATE_FILE_PATH, FsOp.writeAll STATE_FILE_PATH stamped]

/-- The spec's notion of an atomic save (`write-temp-then-rename or
equivalent, rather than overwriting the state file in place`): the
target is never opened for truncating write directly, and the content
reaches it through a rename from some other path. -/
def atomicReplaceSave (trace : List FsOp) (target : String) : Prop :=
  (∀ p, FsOp.openWrite p ∈ trace → p ≠ target) ∧
  (∃ tmp, tmp ≠ target ∧ FsOp.rename tmp target ∈ trace)

/-- Counterexample to C6 as frozen: the trace of a concrete
`save_state` call is not an atomic temp-then-rename save — its very
first operation opens the state file itself for truncating write. -/
theorem save_state_not_atomic_counterexample :
    ¬ atomicReplaceSave (save_state_trace [("spy_price", Val.num 400)] "t")
        STATE_FILE_PATH := by
  intro h
  exact h.1 STATE_FILE_PATH (List.mem_cons_self _ _) rfl

/-- C6 (amended): `save_state` overwrites the state file in place —
its trace is exactly a truncating open of `STATE_FILE_PATH` followed by
the write of the stamped document, contains no rename at all, and opens
the target itself — so it does not use a write-temp-then-rename (or
equivalent) mechanism; a crash mid-write can leave a truncated file
(which the next `load_state` tolerates by resetting to the empty
state). -/
theorem save_state_overwrites_in_place (state : PyDict) (now_iso : String) :
    save_state_trace state now_iso
      = [FsOp.openWrite STATE_FILE_PATH,
         FsOp.writeAll STATE_FILE_PATH
           (aset (aset state "_last_updated" (Val.str now_iso))
             "_version" (Val.str "1.0"))] ∧
    (∀ src dst, FsOp.rename src dst ∉ save_state_trace state now_iso) ∧
    FsOp.openWrite STATE_FILE_PATH ∈ save_state_trace state now_iso := by
  refine ⟨rfl, ?_, List.mem_cons_self _ _⟩
  intro src dst hmem
  simp [save_state_trace] at hmem

/-- Witness for C6 (amended) at a concrete state. -/
theorem save_state_overwrites_in_place_witness :
    save_state_trace [("spy_above_sma", Val.bool true)] "2025-01-01"
      = [FsOp.openWrite STATE_FILE_PATH,
         FsOp.writeAll STATE_FILE_PATH
           (aset (aset [("spy_above_sma", Val.bool true)]
               "_last_updated" (Val.str "2025-01-01"))
             "_version" (Val.str "1.0"))] ∧
    (∀ src dst,
        FsOp.rename src dst ∉ save_state_trace [("spy_above_sma", Val.bool true)]
          "2025-01-01") ∧
    FsOp.openWrite STATE_FILE_PATH
      ∈ save_state_trace [("spy_above_sma", Val.bool true)] "2025-01-01" :=
  save_state_overwrites_in_place [("spy_above_sma", Val.bool true)] "2025-01-01"

end MarketMonitor
